import Mathlib

/-
Verification development for the cold-outreach automation backend.

The definitions below are a shallow embedding of the relevant source code:
  - backend/models.py              (SequenceStep, Lead)
  - backend/modules/excel_handler.py  (get_lead, update_lead)
  - backend/modules/scheduler.py   (schedule_email, _execute_email_send, _restore_jobs)
  - backend/modules/gmail_sender.py (_send_email_sync, send_emails_batch, daily counter)
  - backend/modules/smtp_verifier.py (_verify_email_sync, verify_emails_batch)
  - backend/routes/actions.py      (send_lead_email route)

External effects (SMTP transport, DNS answers, ISO date parsing, the wall
clock) are inputs to the embedded functions: each is passed in as an explicit
value or function parameter, universally quantified in the theorems.
Datetimes are modelled as integers.  Python dicts are modelled as
insertion-ordered association lists with the usual replace-on-set semantics.
-/

/-- Sequence steps of a lead, from backend/models.py (class SequenceStep). -/
inductive SequenceStep where
  | notSent
  | initialSent
  | ghost1Sent
  | ghost2Sent
  | replied
deriving DecidableEq, Repr

/-- Lead record, the fields of backend/models.py (class Lead) that the
send/schedule paths read or write.  An absent email is the empty string,
matching the Python truthiness test `if not lead.email`. -/
structure Lead where
  id : Nat
  email : String
  sequence_step : SequenceStep
  email_sent_at : Option Int
  scheduled_at : Option Int
  email_subject : Option String
  email_draft : Option String
deriving DecidableEq, Repr

/-- A partial update, as passed to ExcelHandler.update_lead as a dict:
each field is present (some) or absent (none) in the update dict. -/
structure LeadUpdates where
  sequence_step : Option SequenceStep
  email_sent_at : Option (Option Int)
  scheduled_at : Option (Option Int)
  email_subject : Option (Option String)
  email_draft : Option (Option String)
deriving DecidableEq, Repr

/-- Merge of an update dict into a lead record: `lead_dict.update(updates)`
in ExcelHandler.update_lead keeps every field the update dict does not
mention. -/
def apply_updates (l : Lead) (u : LeadUpdates) : Lead :=
  { id := l.id
    email := l.email
    sequence_step := u.sequence_step.getD l.sequence_step
    email_sent_at := u.email_sent_at.getD l.email_sent_at
    scheduled_at := u.scheduled_at.getD l.scheduled_at
    email_subject := u.email_subject.getD l.email_subject
    email_draft := u.email_draft.getD l.email_draft }

/-- ExcelHandler.get_lead: first lead with the given id, if any. -/
def get_lead (leads : List Lead) (lead_id : Nat) : Option Lead :=
  leads.find? (fun l => l.id == lead_id)

/-- ExcelHandler.update_lead: replace the first lead with the given id by
its merge with the update dict; leave every other lead untouched. -/
def update_lead : List Lead → Nat → LeadUpdates → List Lead
  | [], _, _ => []
  | l :: ls, lead_id, u =>
    if l.id == lead_id then apply_updates l u :: ls
    else l :: update_lead ls lead_id u

/-- Python dict lookup d.get(k) over an insertion-ordered association list. -/
def dict_get {α : Type} (d : List (String × α)) (k : String) : Option α :=
  (d.find? (fun p => p.1 == k)).map (fun p => p.2)

/-- Python dict assignment d[k] = v: replace in place if the key exists
(a dict never holds a key twice, so replacing the first binding is exact),
else append at the end. -/
def dict_set {α : Type} : List (String × α) → String → α → List (String × α)
  | [], k, v => [(k, v)]
  | p :: d, k, v => if p.1 == k then (k, v) :: d else p :: dict_set d k v

/-- Python del d[k]: remove every pair with the given key. -/
def dict_del {α : Type} (d : List (String × α)) (k : String) :
    List (String × α) :=
  d.filter (fun p => p.1 != k)

/-- Number of entries of the dict carrying the given key. -/
def key_count {α : Type} (d : List (String × α)) (k : String) : Nat :=
  (d.map Prod.fst).count k

/-- New-step computation shared by EmailScheduler._execute_email_send and
the send_lead_email route: default INITIAL_SENT, special cases for
INITIAL_SENT and GHOST_1_SENT. -/
def advance_step (s : SequenceStep) : SequenceStep :=
  if s = SequenceStep.initialSent then SequenceStep.ghost1Sent
  else if s = SequenceStep.ghost1Sent then SequenceStep.ghost2Sent
  else SequenceStep.initialSent

/-- Module-level daily send tracking state of gmail_sender.py:
_daily_send_count and _last_send_date. -/
structure SenderState where
  daily_send_count : Nat
  last_send_date : Option Int
deriving DecidableEq, Repr

/-- gmail_sender._reset_daily_count_if_needed. -/
def reset_daily_count_if_needed (st : SenderState) (today : Int) : SenderState :=
  if st.last_send_date ≠ some today then SenderState.mk 0 (some today) else st

/-- Outcome of the underlying smtplib transmission attempt, the external
effect of _send_email_sync: success, or one of the exception classes the
source catches. -/
inductive Transport where
  | success
  | authError
  | recipientsRefused
  | smtpError (e : String)
  | otherError (e : String)
deriving DecidableEq, Repr

/-- gmail_sender._send_email_sync.  Returns the new counter state together
with the (success, message) pair of the source.  The transport outcome is
only consulted after the credential and quota gates. -/
def send_email_sync (creds_ok : Bool) (cap : Nat) (to_email : String)
    (tr : Transport) (st : SenderState) (today : Int) :
    SenderState × Bool × String :=
  if creds_ok = false then (st, false, "Gmail credentials not configured")
  else
    let st1 := reset_daily_count_if_needed st today
    if cap ≤ st1.daily_send_count then
      (st1, false, "Daily email cap reached (" ++ toString cap ++ ")")
    else
      match tr with
      | Transport.success =>
          (SenderState.mk (st1.daily_send_count + 1) st1.last_send_date,
           true, "Email sent successfully")
      | Transport.authError =>
          (st1, false, "Gmail authentication failed. Check your app password.")
      | Transport.recipientsRefused =>
          (st1, false, "Recipient refused: " ++ to_email)
      | Transport.smtpError e => (st1, false, "SMTP error: " ++ e)
      | Transport.otherError e => (st1, false, "Error sending email: " ++ e)

/-- gmail_sender.send_emails_batch.  Each message carries the transport
outcome its attempt would have.  The pre-send quota test mirrors
get_remaining_daily_quota() <= 0, which also performs the daily reset; a
message refused by that test is answered with the cap diagnostic and the
loop continues to the next message. -/
def send_emails_batch (creds_ok : Bool) (cap : Nat) :
    List (String × Transport) → SenderState → Int →
    SenderState × List (Bool × String)
  | [], st, _ => (st, [])
  | m :: rest, st, today =>
    let st1 := reset_daily_count_if_needed st today
    if cap - st1.daily_send_count = 0 then
      let r := send_emails_batch creds_ok cap rest st1 today
      (r.1, (false, "Daily email cap reached") :: r.2)
    else
      let s := send_email_sync creds_ok cap m.1 m.2 st1 today
      let r := send_emails_batch creds_ok cap rest s.1 today
      (r.1, (s.2.1, s.2.2) :: r.2)

example :
    (send_emails_batch true 2
      [("a", Transport.success), ("b", Transport.success), ("c", Transport.success)]
      (SenderState.mk 0 (some 0)) 0).2 =
    [(true, "Email sent successfully"), (true, "Email sent successfully"),
     (false, "Daily email cap reached")] := by decide

/-- Persisted job metadata value, scheduler.py schedule_email: the dict
written under jobs_metadata[str(lead_id)]. -/
structure JobMeta where
  lead_id : Nat
  subject : String
  body : String
  run_date : Int
  created_at : Int
deriving DecidableEq, Repr

/-- An APScheduler one-shot timer registration carrying the run date and
the arguments of the scheduled _execute_email_send call. -/
structure TimerJob where
  run_date : Int
  lead_id : Nat
  subject : String
  body : String
deriving DecidableEq, Repr

/-- In-memory scheduler state: the APScheduler job registry (keyed by job
id, replace_existing semantics) and the persisted jobs_metadata dict. -/
structure SchedulerState where
  timers : List (String × TimerJob)
  jobs_metadata : List (String × JobMeta)
deriving DecidableEq, Repr

/-- EmailScheduler.schedule_email: register the timer under id
str(lead_id) with replace_existing=True, then write the metadata entry
under the same key and persist. -/
def schedule_email (st : SchedulerState) (lead_id : Nat)
    (subject body : String) (run_date : Int) (now : Int) : SchedulerState :=
  SchedulerState.mk
    (dict_set st.timers (toString lead_id)
      (TimerJob.mk run_date lead_id subject body))
    (dict_set st.jobs_metadata (toString lead_id)
      (JobMeta.mk lead_id subject body run_date now))

/-- Fold of a sequence of schedule_email calls over a scheduler state.
Each call is (lead_id, subject, body, run_date, now). -/
def run_schedules (st : SchedulerState) :
    List (Nat × String × String × Int × Int) → SchedulerState
  | [] => st
  | c :: cs =>
    run_schedules (schedule_email st c.1 c.2.1 c.2.2.1 c.2.2.2.1 c.2.2.2.2) cs

/-- Observable events of one _execute_email_send run, in program order. -/
inductive ExecEvent where
  | removedPersist (job_id : String)
  | sendAttempt (to_email : String)
  | leadUpdated (lead_id : Nat)
deriving DecidableEq, Repr

/-- Result of one _execute_email_send run: the lead store (none models the
get_handler() None case), the jobs_metadata dict after the run, and the
chronological event trace. -/
structure ExecOutcome where
  store : Option (List Lead)
  jobs_metadata : List (String × JobMeta)
  events : List ExecEvent
deriving DecidableEq, Repr

/-- EmailScheduler._execute_email_send.  The persisted entry is deleted
first (guarded by membership, as in the source); then the handler and the
lead are looked up, an empty email aborts, and the dispatch outcome
(send_ok, the result of the awaited send_email call, with a raised
exception already folded to success=False by the source) decides whether
the lead is advanced, stamped and its scheduled_at cleared. -/
def execute_email_send (store : Option (List Lead))
    (meta : List (String × JobMeta)) (send_ok : Bool) (now : Int)
    (lead_id : Nat) (subject body : String) : ExecOutcome :=
  let job_id := toString lead_id
  let removal : List ExecEvent :=
    if (dict_get meta job_id).isSome then [ExecEvent.removedPersist job_id]
    else []
  let meta1 :=
    if (dict_get meta job_id).isSome then dict_del meta job_id else meta
  match store with
  | none => ExecOutcome.mk none meta1 removal
  | some leads =>
    match get_lead leads lead_id with
    | none => ExecOutcome.mk (some leads) meta1 removal
    | some lead =>
      if lead.email = "" then ExecOutcome.mk (some leads) meta1 removal
      else
        let ev := removal ++ [ExecEvent.sendAttempt lead.email]
        if send_ok then
          let upd := LeadUpdates.mk (some (advance_step lead.sequence_step))
            (some (some now)) (some none) (some (some subject))
            (some (some body))
          ExecOutcome.mk (some (update_lead leads lead_id upd)) meta1
            (ev ++ [ExecEvent.leadUpdated lead_id])
        else ExecOutcome.mk (some leads) meta1 ev

example :
    execute_email_send
      (some [Lead.mk 7 "a@b.com" SequenceStep.initialSent none (some 5) none none])
      [("7", JobMeta.mk 7 "s" "b" 5 1)] true 10 7 "s" "b" =
    ExecOutcome.mk
      (some [Lead.mk 7 "a@b.com" SequenceStep.ghost1Sent (some 10) none (some "s") (some "b")])
      []
      [ExecEvent.removedPersist "7", ExecEvent.sendAttempt "a@b.com",
       ExecEvent.leadUpdated 7] := by decide

/-- Verification statuses, backend/models.py (class EmailVerificationStatus). -/
inductive VStatus where
  | valid
  | invalid
  | unknown
  | catchAll
  | pending
deriving DecidableEq, Repr

/-- Outcome of step 1 of _verify_email_sync, the email_validator call:
a syntax error, an undeliverable-domain error, a pass, or any other
exception (which the source swallows and falls through on). -/
inductive Step1 where
  | syntaxErr (e : String)
  | domainErr (e : String)
  | passed
  | otherErr
deriving DecidableEq, Repr

/-- Outcome of the SMTP probe of one mail exchanger, the external effect
of the per-host body of the _verify_email_sync loop: a connection-level
exception (the smtplib/socket classes the source lists), any other
exception, a non-250 MAIL FROM answer, or the RCPT TO response code. -/
inductive ProbeOutcome where
  | connFail (e : String)
  | sysErr (e : String)
  | mailFromRejected (code : Nat) (e : String)
  | rcpt (code : Nat) (e : String)
deriving DecidableEq, Repr

/-- Per-host loop of _verify_email_sync over the attempted exchangers,
threading last_error exactly as the source does; falling off the end of
the list yields UNKNOWN with the could-not-verify diagnostic. -/
def smtp_probe_loop (probe : String → ProbeOutcome) :
    List String → String → VStatus × String
  | [], last_error =>
    (VStatus.unknown, "Could not verify via SMTP: " ++ last_error)
  | host :: rest, _ =>
    match probe host with
    | ProbeOutcome.connFail e =>
        smtp_probe_loop probe rest ("Connection failed: " ++ e)
    | ProbeOutcome.sysErr e =>
        smtp_probe_loop probe rest ("System error: " ++ e)
    | ProbeOutcome.mailFromRejected code e =>
        smtp_probe_loop probe rest
          ("MAIL FROM rejected (" ++ toString code ++ "): " ++ e)
    | ProbeOutcome.rcpt code e =>
        if code = 250 then (VStatus.valid, "Mailbox exists")
        else if code = 550 then (VStatus.invalid, "Mailbox does not exist")
        else if code = 551 ∨ code = 552 ∨ code = 553 ∨ code = 554 then
          (VStatus.invalid, "Rejected (" ++ toString code ++ "): " ++ e)
        else if 400 ≤ code ∧ code < 500 then
          (VStatus.unknown, "Temporary/Rate limit block (" ++ toString code ++ ")")
        else
          smtp_probe_loop probe rest
            ("Unexpected response (" ++ toString code ++ "): " ++ e)

/-- smtp_verifier._verify_email_sync.  step1 is the email_validator
outcome, mx_hosts the resolver answer (empty on NXDOMAIN/NoAnswer/timeout),
probe the SMTP behaviour of each exchanger; the source probes only the
top two hosts. -/
def verify_email_sync (step1 : Step1) (domain : String)
    (mx_hosts : List String) (probe : String → ProbeOutcome) :
    VStatus × String :=
  match step1 with
  | Step1.syntaxErr e => (VStatus.invalid, "Syntax error: " ++ e)
  | Step1.domainErr e => (VStatus.invalid, "Domain error: " ++ e)
  | _ =>
    if mx_hosts.isEmpty then
      (VStatus.invalid, "No MX records found for domain " ++ domain)
    else smtp_probe_loop probe (mx_hosts.take 2) ""

/-- smtp_verifier.verify_emails_batch over a pure per-address verifier.
Returns the VerificationResult list (email, status, message) in input
order, together with the chronological list of addresses actually handed
to verify_email and the number of asyncio.sleep pacing calls made. -/
def verify_emails_batch (vf : String → VStatus × String) :
    List String → List (String × VStatus × String) × List String × Nat
  | [] => ([], [], 0)
  | email :: rest =>
    let result := vf email
    let r := verify_emails_batch vf rest
    ((email, result) :: r.1, email :: r.2.1,
     (if rest.isEmpty then 0 else 1) + r.2.2)

/-- Minimal JSON value model for the persisted scheduler file (the values
of the dict read back by _load_jobs_metadata). -/
inductive Json where
  | jnull
  | jbool (b : Bool)
  | jnum (n : Int)
  | jstr (s : String)
  | jobj (fields : List (String × Json))

/-- Python d[k] on a JSON value: a lookup that raises (none) when the key
is missing (KeyError) or the value is not a dict (TypeError). -/
def json_get (v : Json) (k : String) : Option Json :=
  match v with
  | Json.jobj fields => dict_get fields k
  | _ => none

/-- Decimal value of a digit character list. -/
def digits_to_nat (cs : List Char) : Nat :=
  cs.foldl (fun n c => n * 10 + (c.toNat - 48)) 0

/-- Python int(s): an optionally negated non-empty digit string. -/
def py_int (s : String) : Option Int :=
  match s.data with
  | [] => none
  | c :: cs =>
    if c = '-' then
      if cs ≠ [] ∧ cs.all Char.isDigit then
        some (-(digits_to_nat cs : Int))
      else none
    else
      if (c :: cs).all Char.isDigit then some ((digits_to_nat (c :: cs) : Int))
      else none

/-- Timer registration created by _restore_jobs: add_job with id
str(lead_id) and args [lead_id, job_data subject, job_data body]; the
args are passed through as the raw JSON values. -/
structure RestoreTimer where
  run_date : Int
  lead_id : Int
  subject : Json
  body : Json

/-- Result of one _restore_jobs run: the timer registry built so far, the
lead ids of past jobs skipped for manual review, the number of per-entry
warnings printed by the except arm, the lead ids auto-fired (the source
never fires any), and whether an uncaught exception aborted the loop. -/
structure RestoreOutcome where
  timers : List (String × RestoreTimer)
  skipped_past : List Int
  warn_count : Nat
  fired : List Int
  aborted : Bool

/-- EmailScheduler._restore_jobs.  For each persisted entry, the source
first evaluates int(lead_id_str) and job_data[run_date] OUTSIDE the
try/except: a failure of either is an uncaught exception that aborts the
whole loop.  Inside the try, a run_date value that is not a parsable
ISO string, or a missing subject/body key, is caught and counted as a
warning; a future run date registers a timer under str(lead_id) with
replace_existing semantics; a past run date is skipped. -/
def restore_jobs (parse : String → Option Int) (now : Int) :
    List (String × Json) → List (String × RestoreTimer) → RestoreOutcome
  | [], timers => RestoreOutcome.mk timers [] 0 [] false
  | (key, job_data) :: rest, timers =>
    match py_int key with
    | none => RestoreOutcome.mk timers [] 0 [] true
    | some lead_id =>
      match json_get job_data "run_date" with
      | none => RestoreOutcome.mk timers [] 0 [] true
      | some run_date_json =>
        match
          (match run_date_json with
           | Json.jstr s => parse s
           | _ => none) with
        | none =>
          let r := restore_jobs parse now rest timers
          RestoreOutcome.mk r.timers r.skipped_past (r.warn_count + 1)
            r.fired r.aborted
        | some run_date =>
          if now < run_date then
            match json_get job_data "subject", json_get job_data "body" with
            | some subj, some bod =>
              restore_jobs parse now rest
                (dict_set timers (toString lead_id)
                  (RestoreTimer.mk run_date lead_id subj bod))
            | _, _ =>
              let r := restore_jobs parse now rest timers
              RestoreOutcome.mk r.timers r.skipped_past (r.warn_count + 1)
                r.fired r.aborted
          else
            let r := restore_jobs parse now rest timers
            RestoreOutcome.mk r.timers (lead_id :: r.skipped_past)
              r.warn_count r.fired r.aborted

/-- EmailScheduler.start as seen by the lead store: it starts the
scheduler and runs _restore_jobs, which reads only the persisted entries
and registers timers; the lead store is not an input of the restore path
and is returned unchanged. -/
def scheduler_start (parse : String → Option Int) (now : Int)
    (entries : List (String × Json)) (store : Option (List Lead)) :
    Option (List Lead) × RestoreOutcome :=
  (store, restore_jobs parse now entries [])

example : py_int "7" = some 7 := by decide

example : py_int "oops" = none := by decide

/-- Python `a or b` on optional strings: a None or empty subject/body
argument falls back to the lead field. -/
def py_or_str (a b : Option String) : Option String :=
  match a with
  | some s => if s = "" then b else some s
  | none => b

/-- Python truthiness of an optional string. -/
def truthy (o : Option String) : Bool :=
  match o with
  | some s => s ≠ ""
  | none => false

/-- HTTP-level result of the send_lead_email route: an HTTPException with
its status code and detail, or the success payload. -/
inductive RouteResult where
  | httpError (code : Nat) (detail : String)
  | ok (lead_id : Nat) (step : SequenceStep)
deriving DecidableEq, Repr

/-- Result of one send_lead_email route call: lead store, the scheduler
persisted jobs_metadata (the route never touches the scheduler), the
sender counter state, and the HTTP result. -/
structure RouteOutcome where
  store : Option (List Lead)
  jobs_metadata : List (String × JobMeta)
  sender : SenderState
  result : RouteResult
deriving DecidableEq, Repr

/-- routes/actions.py send_lead_email.  Handler and lead lookup, the
quota gate (get_remaining_daily_quota, which performs the daily reset),
subject/body resolution by Python truthiness, draft and address checks,
the send, and on success an update_lead whose update dict holds
email_sent_at, sequence_step, email_subject and email_draft — and no
scheduled_at key — followed by a save.  The scheduler jobs_metadata is
passed through untouched: the route makes no scheduler call. -/
def send_lead_email_route (store : Option (List Lead))
    (meta : List (String × JobMeta)) (sender : SenderState) (cap : Nat)
    (creds_ok : Bool) (tr : Transport) (today now : Int) (lead_id : Nat)
    (subject_arg body_arg : Option String) : RouteOutcome :=
  match store with
  | none =>
    RouteOutcome.mk none meta sender
      (RouteResult.httpError 404 "No Excel file loaded.")
  | some leads =>
    match get_lead leads lead_id with
    | none =>
      RouteOutcome.mk (some leads) meta sender
        (RouteResult.httpError 404
          ("Lead with ID " ++ toString lead_id ++ " not found"))
    | some lead =>
      let sender1 := reset_daily_count_if_needed sender today
      if cap - sender1.daily_send_count = 0 then
        RouteOutcome.mk (some leads) meta sender1
          (RouteResult.httpError 429 "Daily email quota reached")
      else
        let email_subject := py_or_str subject_arg lead.email_subject
        let email_body := py_or_str body_arg lead.email_draft
        if truthy email_subject = false ∨ truthy email_body = false then
          RouteOutcome.mk (some leads) meta sender1
            (RouteResult.httpError 400 "No email draft. Generate a draft first.")
        else if lead.email = "" then
          RouteOutcome.mk (some leads) meta sender1
            (RouteResult.httpError 400 "Lead has no email address")
        else
          let s := send_email_sync creds_ok cap lead.email tr sender1 today
          if s.2.1 = false then
            RouteOutcome.mk (some leads) meta s.1
              (RouteResult.httpError 500 ("Failed to send email: " ++ s.2.2))
          else
            let new_step := advance_step lead.sequence_step
            let upd := LeadUpdates.mk (some new_step) (some (some now)) none
              (some (some (email_subject.getD ""))) (some (some (email_body.getD "")))
            RouteOutcome.mk (some (update_lead leads lead_id upd)) meta s.1
              (RouteResult.ok lead_id new_step)

/-- Merging an update dict leaves the lead id unchanged. -/
theorem apply_updates_id (l : Lead) (u : LeadUpdates) :
    (apply_updates l u).id = l.id := rfl

/-- Updating a lead and reading it back yields the merged record. -/
theorem get_lead_update_lead (leads : List Lead) (lead_id : Nat)
    (u : LeadUpdates) :
    get_lead (update_lead leads lead_id u) lead_id =
      (get_lead leads lead_id).map (fun l => apply_updates l u) := by
  induction leads with
  | nil => rfl
  | cons l ls ih =>
    cases h : (l.id == lead_id) with
    | true =>
      have h2 : ((apply_updates l u).id == lead_id) = true := by
        rw [apply_updates_id]
        exact h
      simp [update_lead, get_lead, List.find?_cons, h, h2]
    | false =>
      simpa [update_lead, get_lead, List.find?_cons, h] using ih

/-- Deleting a key removes every binding for it. -/
theorem dict_get_del {α : Type} (d : List (String × α)) (k : String) :
    dict_get (dict_del d k) k = none := by
  induction d with
  | nil => rfl
  | cons p d ih =>
    cases h : (p.1 == k) with
    | true =>
      simp [dict_del, dict_get, bne, h, List.filter_cons, List.find?_cons, ih]
    | false =>
      simp [dict_del, dict_get, bne, h, List.filter_cons, List.find?_cons, ih]

/-- Setting a key and reading it back yields the value just written. -/
theorem dict_get_set_self {α : Type} (d : List (String × α)) (k : String)
    (v : α) : dict_get (dict_set d k v) k = some v := by
  induction d with
  | nil => simp [dict_set, dict_get, List.find?_cons]
  | cons p d ih =>
    cases h : (p.1 == k) with
    | true => simp [dict_set, dict_get, h, List.find?_cons]
    | false => simpa [dict_set, dict_get, h, List.find?_cons] using ih

/-- Setting one key does not change the binding of another key. -/
theorem dict_get_set_ne {α : Type} (d : List (String × α)) (k k2 : String)
    (v : α) (h : k2 ≠ k) : dict_get (dict_set d k v) k2 = dict_get d k2 := by
  have hkk : (k == k2) = false := by
    simp only [beq_eq_false_iff_ne, ne_eq]
    exact fun he => h he.symm
  induction d with
  | nil => simp [dict_set, dict_get, List.find?_cons, hkk]
  | cons p d ih =>
    cases hp : (p.1 == k) with
    | true =>
      have hp1 : p.1 = k := by simpa using hp
      have hp2 : (p.1 == k2) = false := by rw [hp1]; exact hkk
      simp [dict_set, dict_get, hp, hp2, hkk, List.find?_cons]
    | false =>
      cases hq : (p.1 == k2) with
      | true => simp [dict_set, dict_get, hp, hq, List.find?_cons]
      | false => simpa [dict_set, dict_get, hp, hq, List.find?_cons] using ih

/-- Keys present after a set are the old keys plus the new one. -/
theorem mem_keys_dict_set {α : Type} (d : List (String × α)) (k x : String)
    (v : α) :
    x ∈ (dict_set d k v).map Prod.fst ↔ x ∈ d.map Prod.fst ∨ x = k := by
  induction d with
  | nil => simp [dict_set]
  | cons p d ih =>
    simp only [dict_set]
    cases hp : (p.1 == k) with
    | true =>
      have hp1 : p.1 = k := by simpa using hp
      rw [if_pos rfl]
      simp only [List.map_cons, List.mem_cons, hp1]
      tauto
    | false =>
      rw [if_neg (by simp)]
      simp only [List.map_cons, List.mem_cons]
      rw [ih]
      tauto

/-- A set keeps the keys of the dict free of duplicates. -/
theorem keys_nodup_dict_set {α : Type} (d : List (String × α)) (k : String)
    (v : α) (h : (d.map Prod.fst).Nodup) :
    ((dict_set d k v).map Prod.fst).Nodup := by
  induction d with
  | nil => simp [dict_set]
  | cons p d ih =>
    simp only [List.map_cons, List.nodup_cons] at h
    simp only [dict_set]
    cases hp : (p.1 == k) with
    | true =>
      have hp1 : p.1 = k := by simpa using hp
      rw [if_pos rfl]
      simp only [List.map_cons, List.nodup_cons]
      rw [← hp1]
      exact h
    | false =>
      have hp1 : p.1 ≠ k := by simpa using hp
      rw [if_neg (by simp)]
      simp only [List.map_cons, List.nodup_cons]
      refine ⟨fun hm => ?_, ih h.2⟩
      rcases (mem_keys_dict_set d k p.1 v).mp hm with h1 | h2
      · exact h.1 h1
      · exact hp1 h2

/-- On a duplicate-free dict, a set leaves exactly one binding of the key. -/
theorem key_count_dict_set {α : Type} (d : List (String × α)) (k : String)
    (v : α) (h : (d.map Prod.fst).Nodup) :
    key_count (dict_set d k v) k = 1 := by
  induction d with
  | nil => simp [dict_set, key_count]
  | cons p d ih =>
    simp only [List.map_cons, List.nodup_cons] at h
    simp only [key_count, dict_set]
    cases hp : (p.1 == k) with
    | true =>
      have hp1 : p.1 = k := by simpa using hp
      have hz : List.count k (d.map Prod.fst) = 0 := by
        rw [List.count_eq_zero]
        rw [hp1] at h
        exact h.1
      rw [if_pos rfl]
      simp [List.count_cons, hz]
    | false =>
      have hc := ih h.2
      simp only [key_count] at hc
      rw [if_neg (by simp)]
      simp [List.count_cons, hc, hp]

/-- Fixed verifier used by closed counterexample statements. -/
def cex_vf : String → VStatus × String := fun _ => (VStatus.valid, "Mailbox exists")

/-- All attempted exchangers failing at the connection level drives the
probe loop off the end of the host list, which yields UNKNOWN. -/
theorem smtp_probe_loop_all_connfail (probe : String → ProbeOutcome)
    (hosts : List String) (last_error : String)
    (hc : ∀ h ∈ hosts, ∃ e, probe h = ProbeOutcome.connFail e) :
    (smtp_probe_loop probe hosts last_error).1 = VStatus.unknown := by
  induction hosts generalizing last_error with
  | nil => rfl
  | cons hst rest ih =>
    obtain ⟨e, he⟩ := hc hst (by simp)
    simp only [smtp_probe_loop, he]
    exact ih _ (fun x hx => hc x (List.mem_cons_of_mem _ hx))

/-- Claim C1, counterexample: firing a job for a lead already at
ghost_2_sent with a successful dispatch does not leave the sequence step
unchanged — _execute_email_send falls into its default branch and resets
the step to initial_sent. -/
theorem c1_ghost2_fire_not_noop :
    (get_lead ((execute_email_send
        (some [Lead.mk 7 "a@b.com" SequenceStep.ghost2Sent none (some 5) none none])
        [] true 10 7 "s" "b").store.getD []) 7).map Lead.sequence_step
      = some SequenceStep.initialSent ∧
    SequenceStep.initialSent ≠ SequenceStep.ghost2Sent := by decide

/-- Claim C1 as amended: when the scheduler fires a job for a present lead
with a non-empty email and the dispatch succeeds, the lead sequence step
becomes advance_step of the old one — not_sent to initial_sent,
initial_sent to ghost_1_sent, ghost_1_sent to ghost_2_sent, but a lead at
ghost_2_sent or replied is RESET to initial_sent (the default branch), not
left unchanged — and email_sent_at is stamped, scheduled_at cleared, and
the sent draft persisted. -/
theorem c1_fire_success_advances (leads : List Lead)
    (meta : List (String × JobMeta)) (now : Int) (lead_id : Nat)
    (subject body : String) (lead : Lead)
    (hl : get_lead leads lead_id = some lead) (he : lead.email ≠ "") :
    get_lead ((execute_email_send (some leads) meta true now lead_id
        subject body).store.getD []) lead_id
      = some (Lead.mk lead.id lead.email (advance_step lead.sequence_step)
          (some now) none (some subject) (some body))
    ∧ advance_step SequenceStep.notSent = SequenceStep.initialSent
    ∧ advance_step SequenceStep.initialSent = SequenceStep.ghost1Sent
    ∧ advance_step SequenceStep.ghost1Sent = SequenceStep.ghost2Sent
    ∧ advance_step SequenceStep.ghost2Sent = SequenceStep.initialSent
    ∧ advance_step SequenceStep.replied = SequenceStep.initialSent := by
  have hs : (execute_email_send (some leads) meta true now lead_id
      subject body).store
      = some (update_lead leads lead_id
          (LeadUpdates.mk (some (advance_step lead.sequence_step))
            (some (some now)) (some none) (some (some subject))
            (some (some body)))) := by
    simp [execute_email_send, hl, he]
  refine ⟨?_, rfl, rfl, rfl, rfl, rfl⟩
  rw [hs]
  simp only [Option.getD_some]
  rw [get_lead_update_lead, hl]
  rfl

/-- Witness for c1_fire_success_advances at a concrete lead. -/
theorem c1_fire_success_advances_witness :
    get_lead ((execute_email_send
        (some [Lead.mk 3 "x@y.z" SequenceStep.ghost1Sent none (some 4) none none])
        [] true 9 3 "su" "bo").store.getD []) 3
      = some (Lead.mk 3 "x@y.z" SequenceStep.ghost2Sent (some 9) none
          (some "su") (some "bo")) :=
  (c1_fire_success_advances
    [Lead.mk 3 "x@y.z" SequenceStep.ghost1Sent none (some 4) none none]
    [] 9 3 "su" "bo"
    (Lead.mk 3 "x@y.z" SequenceStep.ghost1Sent none (some 4) none none)
    (by decide) (by decide)).1

/-- Claim C5: in smtp-only mode, when the address passes the syntax stage
(or that stage errored out and was skipped) and the domain has MX records
but every attempted exchanger (the top two) fails at the connection
level, verification returns UNKNOWN and never INVALID; and with no MX
records at all it returns INVALID. -/
theorem c5_conn_failures_unknown :
    (∀ (step1 : Step1) (domain : String) (mx : List String)
       (probe : String → ProbeOutcome),
       (step1 = Step1.passed ∨ step1 = Step1.otherErr) → mx ≠ [] →
       (∀ h ∈ mx.take 2, ∃ e, probe h = ProbeOutcome.connFail e) →
       ((verify_email_sync step1 domain mx probe).1 = VStatus.unknown ∧
        (verify_email_sync step1 domain mx probe).1 ≠ VStatus.invalid))
  ∧ (∀ (step1 : Step1) (domain : String) (probe : String → ProbeOutcome),
       (verify_email_sync step1 domain [] probe).1 = VStatus.invalid) := by
  constructor
  · intro step1 domain mx probe hstep hmx hc
    have hu : (verify_email_sync step1 domain mx probe).1 = VStatus.unknown := by
      have hloop := smtp_probe_loop_all_connfail probe (mx.take 2) "" hc
      rcases hstep with h1 | h1 <;>
        simp [verify_email_sync, h1, List.isEmpty_iff, hmx, hloop]
    refine ⟨hu, ?_⟩
    rw [hu]
    decide
  · intro step1 domain probe
    cases step1 <;> simp [verify_email_sync]

/-- Witness for c5_conn_failures_unknown with one unreachable exchanger. -/
theorem c5_conn_failures_unknown_witness :
    ((verify_email_sync Step1.passed "x.com" ["mx1.x.com"]
        (fun _ => ProbeOutcome.connFail "refused")).1 = VStatus.unknown ∧
     (verify_email_sync Step1.passed "x.com" ["mx1.x.com"]
        (fun _ => ProbeOutcome.connFail "refused")).1 ≠ VStatus.invalid)
  ∧ (verify_email_sync Step1.passed "x.com" []
        (fun _ => ProbeOutcome.connFail "refused")).1 = VStatus.invalid :=
  ⟨c5_conn_failures_unknown.1 Step1.passed "x.com" ["mx1.x.com"]
      (fun _ => ProbeOutcome.connFail "refused") (Or.inl rfl) (by decide)
      (fun hst _ => ⟨"refused", rfl⟩),
   c5_conn_failures_unknown.2 Step1.passed "x.com"
      (fun _ => ProbeOutcome.connFail "refused")⟩

/-- Claim C6, counterexample: a batch with the same address twice hands
the address to the verifier twice (no de-duplication) and sleeps once
between the two identical verifications, against the claimed
verify-once-and-reuse behaviour with delays only between distinct
addresses. -/
theorem c6_no_dedup_counterexample :
    (verify_emails_batch cex_vf ["a@x.com", "a@x.com"]).2.1
      = ["a@x.com", "a@x.com"]
  ∧ List.count "a@x.com" (verify_emails_batch cex_vf ["a@x.com", "a@x.com"]).2.1 = 2
  ∧ (verify_emails_batch cex_vf ["a@x.com", "a@x.com"]).2.2 = 1 := by decide

/-- Claim C6 as amended: the batch verifier calls the per-address verifier
once per OCCURRENCE (repeats are re-verified, nothing is de-duplicated),
returns one result per input element in input order, and sleeps the fixed
delay between every pair of consecutive verifications, repeats included. -/
theorem c6_batch_per_occurrence (vf : String → VStatus × String)
    (emails : List String) :
    (verify_emails_batch vf emails).1 = emails.map (fun e => (e, vf e))
  ∧ (verify_emails_batch vf emails).2.1 = emails
  ∧ (verify_emails_batch vf emails).2.2 = emails.length - 1 := by
  induction emails with
  | nil => exact ⟨rfl, rfl, rfl⟩
  | cons e rest ih =>
    refine ⟨?_, ?_, ?_⟩
    · simp [verify_emails_batch, ih.1]
    · simp [verify_emails_batch, ih.2.1]
    · simp only [verify_emails_batch, ih.2.2]
      cases rest with
      | nil => rfl
      | cons r rs => simp [List.isEmpty]; omega

/-- Claim C8: with credentials configured and the counter at the cap for
the current date, send fails with the quota diagnostic, consults the
transport not at all (the result is one fixed value for every transport
outcome, hence no network I/O) and leaves the counter unchanged; a
successful send increments the daily counter by exactly one; and any send
returning failure leaves the counter unchanged. -/
theorem c8_quota_gate_and_counter :
    (∀ (cap c : Nat) (today : Int) (dst : String) (tr : Transport),
       cap ≤ c →
       send_email_sync true cap dst tr (SenderState.mk c (some today)) today
         = (SenderState.mk c (some today), false,
            "Daily email cap reached (" ++ toString cap ++ ")"))
  ∧ (∀ (cap c : Nat) (today : Int) (dst : String), c < cap →
       (send_email_sync true cap dst Transport.success
          (SenderState.mk c (some today)) today).1.daily_send_count = c + 1
       ∧ (send_email_sync true cap dst Transport.success
          (SenderState.mk c (some today)) today).2.1 = true)
  ∧ (∀ (creds_ok : Bool) (cap c : Nat) (today : Int) (dst : String)
       (tr : Transport),
       (send_email_sync creds_ok cap dst tr (SenderState.mk c (some today))
          today).2.1 = false →
       (send_email_sync creds_ok cap dst tr (SenderState.mk c (some today))
          today).1.daily_send_count = c) := by
  refine ⟨?_, ?_, ?_⟩
  · intro cap c today dst tr hle
    simp [send_email_sync, reset_daily_count_if_needed, hle]
  · intro cap c today dst hlt
    constructor <;>
      simp [send_email_sync, reset_daily_count_if_needed, Nat.not_le.mpr hlt]
  · intro creds_ok cap c today dst tr hfail
    cases creds_ok with
    | false => simp [send_email_sync] at hfail ⊢
    | true =>
      by_cases hle : cap ≤ c
      · simp [send_email_sync, reset_daily_count_if_needed, hle]
      · cases tr <;>
          simp [send_email_sync, reset_daily_count_if_needed, hle] at hfail ⊢

/-- Witness for c8_quota_gate_and_counter: cap 2 already used up blocks a
send with the counter untouched; a success at 1 of 5 moves the counter to
2; an authentication failure at 1 of 5 leaves it at 1. -/
theorem c8_quota_gate_and_counter_witness :
    send_email_sync true 2 "a@b.c" Transport.authError
        (SenderState.mk 2 (some 0)) 0
      = (SenderState.mk 2 (some 0), false,
         "Daily email cap reached (" ++ toString 2 ++ ")")
  ∧ (send_email_sync true 5 "a@b.c" Transport.success
        (SenderState.mk 1 (some 0)) 0).1.daily_send_count = 1 + 1
  ∧ (send_email_sync true 5 "a@b.c" Transport.authError
        (SenderState.mk 1 (some 0)) 0).1.daily_send_count = 1 :=
  ⟨c8_quota_gate_and_counter.1 2 2 0 "a@b.c" Transport.authError (by decide),
   (c8_quota_gate_and_counter.2.1 5 1 0 "a@b.c" (by decide)).1,
   c8_quota_gate_and_counter.2.2 true 5 1 0 "a@b.c" Transport.authError
     (by decide)⟩

/-- Every removedPersist event in the trace strictly precedes every
sendAttempt event. -/
def removal_precedes_send (evs : List ExecEvent) : Prop :=
  ∀ (i j : Nat) (rid dst : String),
    evs.get? i = some (ExecEvent.removedPersist rid) →
    evs.get? j = some (ExecEvent.sendAttempt dst) → i < j

/-- A trace split into a removal-only prefix and a removal-free tail has
every removal before every send attempt. -/
theorem removal_precedes_send_of_split (l1 l2 : List ExecEvent)
    (h1 : ∀ dst, ExecEvent.sendAttempt dst ∉ l1)
    (h2 : ∀ rid, ExecEvent.removedPersist rid ∉ l2) :
    removal_precedes_send (l1 ++ l2) := by
  intro i j rid dst hi hj
  have hi1 : i < l1.length := by
    by_contra hge
    rw [List.get?_append_right (Nat.le_of_not_lt hge)] at hi
    exact h2 rid (List.get?_mem hi)
  have hj1 : ¬ j < l1.length := by
    intro hlt
    rw [List.get?_append hlt] at hj
    exact h1 dst (List.get?_mem hj)
  omega

/-- Shape of the _execute_email_send trace: the removal of the persisted
entry (present exactly when the entry existed) is the prefix, and nothing
in the remaining trace is a removal. -/
theorem execute_events_shape (store : Option (List Lead))
    (meta : List (String × JobMeta)) (send_ok : Bool) (now : Int)
    (lead_id : Nat) (subject body : String) :
    ∃ tail,
      (execute_email_send store meta send_ok now lead_id subject body).events
        = (if (dict_get meta (toString lead_id)).isSome then
             [ExecEvent.removedPersist (toString lead_id)] else []) ++ tail
      ∧ (∀ rid, ExecEvent.removedPersist rid ∉ tail)
      ∧ (∀ dst, ExecEvent.sendAttempt dst ∉
          (if (dict_get meta (toString lead_id)).isSome then
             [ExecEvent.removedPersist (toString lead_id)] else
             ([] : List ExecEvent))) := by
  have hnos : ∀ dst, ExecEvent.sendAttempt dst ∉
      (if (dict_get meta (toString lead_id)).isSome then
        [ExecEvent.removedPersist (toString lead_id)] else
        ([] : List ExecEvent)) := by
    intro dst
    cases (dict_get meta (toString lead_id)).isSome <;> simp
  unfold execute_email_send
  cases store with
  | none => exact ⟨[], by simp, by simp, hnos⟩
  | some leads =>
    cases hl : get_lead leads lead_id with
    | none => exact ⟨[], by simp [hl], by simp, hnos⟩
    | some lead =>
      by_cases he : lead.email = ""
      · exact ⟨[], by simp [hl, he], by simp, hnos⟩
      · cases send_ok with
        | false =>
          refine ⟨[ExecEvent.sendAttempt lead.email], ?_, by simp, hnos⟩
          simp [hl, he]
        | true =>
          refine ⟨[ExecEvent.sendAttempt lead.email,
            ExecEvent.leadUpdated lead_id], ?_, by simp, hnos⟩
          simp [hl, he]

/-- The jobs_metadata returned by _execute_email_send is the input dict
with the entry for the lead removed when it was present. -/
theorem execute_meta_eq (store : Option (List Lead))
    (meta : List (String × JobMeta)) (send_ok : Bool) (now : Int)
    (lead_id : Nat) (subject body : String) :
    (execute_email_send store meta send_ok now lead_id subject body).jobs_metadata
      = (if (dict_get meta (toString lead_id)).isSome then
           dict_del meta (toString lead_id) else meta) := by
  unfold execute_email_send
  cases store with
  | none => rfl
  | some leads =>
    cases hl : get_lead leads lead_id with
    | none => simp [hl]
    | some lead =>
      by_cases he : lead.email = ""
      · simp [hl, he]
      · cases send_ok <;> simp [hl, he]

/-- Claim C2: during a fired job the persisted entry for the lead is
removed before the send is attempted (every removal event precedes every
send-attempt event in the trace, and the removal event is present
whenever the entry existed), and the entry is absent from jobs_metadata
after execution regardless of the outcome. -/
theorem c2_remove_before_send :
    (∀ (store : Option (List Lead)) (meta : List (String × JobMeta))
       (send_ok : Bool) (now : Int) (lead_id : Nat) (subject body : String),
       removal_precedes_send
         (execute_email_send store meta send_ok now lead_id subject body).events)
  ∧ (∀ (store : Option (List Lead)) (meta : List (String × JobMeta))
       (send_ok : Bool) (now : Int) (lead_id : Nat) (subject body : String),
       dict_get (execute_email_send store meta send_ok now lead_id subject
         body).jobs_metadata (toString lead_id) = none)
  ∧ (∀ (store : Option (List Lead)) (meta : List (String × JobMeta))
       (send_ok : Bool) (now : Int) (lead_id : Nat) (subject body : String),
       (dict_get meta (toString lead_id)).isSome →
       ExecEvent.removedPersist (toString lead_id)
         ∈ (execute_email_send store meta send_ok now lead_id subject
             body).events) := by
  refine ⟨?_, ?_, ?_⟩
  · intro store meta send_ok now lead_id subject body
    obtain ⟨tail, hsh, hno, hns⟩ :=
      execute_events_shape store meta send_ok now lead_id subject body
    rw [hsh]
    exact removal_precedes_send_of_split _ _ hns hno
  · intro store meta send_ok now lead_id subject body
    rw [execute_meta_eq]
    cases hm : (dict_get meta (toString lead_id)).isSome with
    | true => simp [dict_get_del]
    | false =>
      simp only [Bool.false_eq_true, if_false]
      exact Option.not_isSome_iff_eq_none.mp (by simp [hm])
  · intro store meta send_ok now lead_id subject body hm
    obtain ⟨tail, hsh, _hno, _hns⟩ :=
      execute_events_shape store meta send_ok now lead_id subject body
    rw [hsh, hm]
    simp

/-- Witness for c2_remove_before_send on a concrete fired job: the
removal event sits at index 0, the send attempt at index 1, the entry is
gone afterwards, and the removal event is in the trace. -/
theorem c2_remove_before_send_witness :
    (0 : Nat) < 1
  ∧ dict_get (execute_email_send
      (some [Lead.mk 7 "a@b.com" SequenceStep.initialSent none (some 5) none none])
      [("7", JobMeta.mk 7 "s" "b" 5 1)] true 10 7 "s" "b").jobs_metadata "7" = none
  ∧ ExecEvent.removedPersist "7" ∈ (execute_email_send
      (some [Lead.mk 7 "a@b.com" SequenceStep.initialSent none (some 5) none none])
      [("7", JobMeta.mk 7 "s" "b" 5 1)] true 10 7 "s" "b").events :=
  ⟨c2_remove_before_send.1
      (some [Lead.mk 7 "a@b.com" SequenceStep.initialSent none (some 5) none none])
      [("7", JobMeta.mk 7 "s" "b" 5 1)] true 10 7 "s" "b" 0 1 "7" "a@b.com"
      (by decide) (by decide),
   c2_remove_before_send.2.1
      (some [Lead.mk 7 "a@b.com" SequenceStep.initialSent none (some 5) none none])
      [("7", JobMeta.mk 7 "s" "b" 5 1)] true 10 7 "s" "b",
   c2_remove_before_send.2.2
      (some [Lead.mk 7 "a@b.com" SequenceStep.initialSent none (some 5) none none])
      [("7", JobMeta.mk 7 "s" "b" 5 1)] true 10 7 "s" "b" (by decide)⟩

/-- With all transports succeeding, a batch starting at counter c for the
current date produces min (cap - c) N successes followed by quota
failures for the rest. -/
theorem send_batch_all_success (cap : Nat) (today : Int) :
    ∀ (msgs : List (String × Transport)) (c : Nat),
    (∀ m ∈ msgs, m.2 = Transport.success) →
    (send_emails_batch true cap msgs (SenderState.mk c (some today)) today).2
      = List.replicate (min (cap - c) msgs.length)
          (true, "Email sent successfully")
        ++ List.replicate (msgs.length - (cap - c))
          (false, "Daily email cap reached") := by
  intro msgs
  induction msgs with
  | nil =>
    intro c _h
    simp [send_emails_batch]
  | cons m rest ih =>
    intro c hall
    have hrest := fun c2 => ih c2 (fun x hx => hall x (List.mem_cons_of_mem _ hx))
    have hreset : reset_daily_count_if_needed (SenderState.mk c (some today))
        today = SenderState.mk c (some today) := by
      simp [reset_daily_count_if_needed]
    by_cases hq : cap - c = 0
    · have hstep : (send_emails_batch true cap (m :: rest)
          (SenderState.mk c (some today)) today).2
          = (false, "Daily email cap reached") ::
            (send_emails_batch true cap rest
              (SenderState.mk c (some today)) today).2 := by
        simp only [send_emails_batch, hreset]
        rw [if_pos hq]
      rw [hstep, hrest c]
      have h1 : min (cap - c) rest.length = 0 := by omega
      have h2 : min (cap - c) (m :: rest).length = 0 := by
        simp only [List.length_cons]
        omega
      have h3 : (m :: rest).length - (cap - c)
          = (rest.length - (cap - c)) + 1 := by
        simp only [List.length_cons]
        omega
      rw [h1, h2, h3]
      simp [List.replicate_succ]
    · have hm2 : m.2 = Transport.success := hall m (by simp)
      have hclt : c < cap := by omega
      have hsend : send_email_sync true cap m.1 Transport.success
          (SenderState.mk c (some today)) today
          = (SenderState.mk (c + 1) (some today), true,
             "Email sent successfully") := by
        simp [send_email_sync, reset_daily_count_if_needed,
          Nat.not_le.mpr hclt]
      have hstep : (send_emails_batch true cap (m :: rest)
          (SenderState.mk c (some today)) today).2
          = (true, "Email sent successfully") ::
            (send_emails_batch true cap rest
              (SenderState.mk (c + 1) (some today)) today).2 := by
        simp only [send_emails_batch, hreset]
        rw [if_neg hq, hm2, hsend]
      rw [hstep, hrest (c + 1)]
      have h1 : min (cap - c) (m :: rest).length
          = min (cap - (c + 1)) rest.length + 1 := by
        simp only [List.length_cons]
        omega
      have h2 : (m :: rest).length - (cap - c)
          = rest.length - (cap - (c + 1)) := by
        simp only [List.length_cons]
        omega
      rw [h1, h2]
      simp [List.replicate_succ]

/-- Claim C4: for N messages, a cap K smaller than N, a counter starting
at zero for the current date and every underlying transmission
succeeding, send_batch returns exactly N results in input order — the
first K successes and the remaining N − K quota-exceeded failures. -/
theorem c4_batch_cap_split (msgs : List (String × Transport)) (cap : Nat)
    (today : Int) (hall : ∀ m ∈ msgs, m.2 = Transport.success)
    (hcap : cap < msgs.length) :
    (send_emails_batch true cap msgs (SenderState.mk 0 (some today)) today).2
      = List.replicate cap (true, "Email sent successfully")
        ++ List.replicate (msgs.length - cap) (false, "Daily email cap reached")
    ∧ (send_emails_batch true cap msgs (SenderState.mk 0 (some today))
        today).2.length = msgs.length := by
  have h := send_batch_all_success cap today msgs 0 hall
  rw [Nat.sub_zero] at h
  have hmin : min cap msgs.length = cap := by omega
  rw [hmin] at h
  refine ⟨h, ?_⟩
  rw [h]
  simp only [List.length_append, List.length_replicate]
  omega

/-- Witness for c4_batch_cap_split: three successful messages against a
cap of two give two successes then one quota failure. -/
theorem c4_batch_cap_split_witness :
    (send_emails_batch true 2
      [("a", Transport.success), ("b", Transport.success),
       ("c", Transport.success)] (SenderState.mk 0 (some 0)) 0).2
      = List.replicate 2 (true, "Email sent successfully")
        ++ List.replicate 1 (false, "Daily email cap reached")
    ∧ (send_emails_batch true 2
      [("a", Transport.success), ("b", Transport.success),
       ("c", Transport.success)] (SenderState.mk 0 (some 0)) 0).2.length = 3 :=
  c4_batch_cap_split
    [("a", Transport.success), ("b", Transport.success),
     ("c", Transport.success)] 2 0 (by decide) (by decide)

/-- A sequence of schedule_email calls keeps both key sets duplicate-free. -/
theorem run_schedules_keys_nodup
    (calls : List (Nat × String × String × Int × Int)) :
    ∀ (st : SchedulerState),
    (st.jobs_metadata.map Prod.fst).Nodup → (st.timers.map Prod.fst).Nodup →
    ((run_schedules st calls).jobs_metadata.map Prod.fst).Nodup
    ∧ ((run_schedules st calls).timers.map Prod.fst).Nodup := by
  induction calls with
  | nil => exact fun st h1 h2 => ⟨h1, h2⟩
  | cons cl cs ih =>
    intro st h1 h2
    exact ih _ (keys_nodup_dict_set _ _ _ h1) (keys_nodup_dict_set _ _ _ h2)

/-- Claim C3: starting from a fresh scheduler, any sequence of
schedule_email calls leaves at most one persisted entry and at most one
timer registration per key; and re-scheduling the same lead leaves
exactly one persisted entry and one timer, both holding the second call
parameters. -/
theorem c3_single_job_per_lead :
    (∀ (calls : List (Nat × String × String × Int × Int)) (k : String),
       key_count (run_schedules (SchedulerState.mk [] []) calls).jobs_metadata k ≤ 1
       ∧ key_count (run_schedules (SchedulerState.mk [] []) calls).timers k ≤ 1)
  ∧ (∀ (st : SchedulerState) (lead_id : Nat) (s1 b1 : String) (r1 t1 : Int)
       (s2 b2 : String) (r2 t2 : Int),
       (st.jobs_metadata.map Prod.fst).Nodup →
       (st.timers.map Prod.fst).Nodup →
       dict_get (schedule_email (schedule_email st lead_id s1 b1 r1 t1)
           lead_id s2 b2 r2 t2).jobs_metadata (toString lead_id)
         = some (JobMeta.mk lead_id s2 b2 r2 t2)
       ∧ key_count (schedule_email (schedule_email st lead_id s1 b1 r1 t1)
           lead_id s2 b2 r2 t2).jobs_metadata (toString lead_id) = 1
       ∧ dict_get (schedule_email (schedule_email st lead_id s1 b1 r1 t1)
           lead_id s2 b2 r2 t2).timers (toString lead_id)
         = some (TimerJob.mk r2 lead_id s2 b2)
       ∧ key_count (schedule_email (schedule_email st lead_id s1 b1 r1 t1)
           lead_id s2 b2 r2 t2).timers (toString lead_id) = 1) := by
  constructor
  · intro calls k
    have h := run_schedules_keys_nodup calls (SchedulerState.mk [] [])
      (by simp) (by simp)
    exact ⟨List.nodup_iff_count_le_one.mp h.1 k,
           List.nodup_iff_count_le_one.mp h.2 k⟩
  · intro st lead_id s1 b1 r1 t1 s2 b2 r2 t2 h1 h2
    refine ⟨dict_get_set_self _ _ _, ?_, dict_get_set_self _ _ _, ?_⟩
    · exact key_count_dict_set _ _ _ (keys_nodup_dict_set _ _ _ h1)
    · exact key_count_dict_set _ _ _ (keys_nodup_dict_set _ _ _ h2)

/-- Witness for c3_single_job_per_lead: scheduling lead 5 twice from a
fresh scheduler keeps one entry and one timer with the second parameters,
and a two-call run never exceeds one entry per key. -/
theorem c3_single_job_per_lead_witness :
    (key_count (run_schedules (SchedulerState.mk [] [])
        [(5, "s1", "b1", 10, 1), (5, "s2", "b2", 20, 2)]).jobs_metadata "5" ≤ 1
     ∧ key_count (run_schedules (SchedulerState.mk [] [])
        [(5, "s1", "b1", 10, 1), (5, "s2", "b2", 20, 2)]).timers "5" ≤ 1)
  ∧ dict_get (schedule_email (schedule_email (SchedulerState.mk [] [])
        5 "s1" "b1" 10 1) 5 "s2" "b2" 20 2).jobs_metadata (toString 5)
      = some (JobMeta.mk 5 "s2" "b2" 20 2)
  ∧ key_count (schedule_email (schedule_email (SchedulerState.mk [] [])
        5 "s1" "b1" 10 1) 5 "s2" "b2" 20 2).timers (toString 5) = 1 :=
  ⟨c3_single_job_per_lead.1 [(5, "s1", "b1", 10, 1), (5, "s2", "b2", 20, 2)] "5",
   (c3_single_job_per_lead.2 (SchedulerState.mk [] []) 5 "s1" "b1" 10 1
      "s2" "b2" 20 2 (by decide) (by decide)).1,
   (c3_single_job_per_lead.2 (SchedulerState.mk [] []) 5 "s1" "b1" 10 1
      "s2" "b2" 20 2 (by decide) (by decide)).2.2.2⟩

/-- Claim C10: a successful immediate send through the send_lead_email
route advances the sequence step, stamps email_sent_at and stores the
sent subject and draft, but leaves the lead scheduled_at field exactly as
it was and passes the scheduler persisted job mapping through untouched —
only the scheduler firing path clears scheduled_at. -/
theorem c10_route_send_keeps_schedule (leads : List Lead)
    (meta : List (String × JobMeta)) (c cap : Nat) (today now : Int)
    (lead_id : Nat) (subject_arg body_arg : Option String) (lead : Lead)
    (hl : get_lead leads lead_id = some lead) (hq : c < cap)
    (hsubj : truthy (py_or_str subject_arg lead.email_subject) = true)
    (hbody : truthy (py_or_str body_arg lead.email_draft) = true)
    (he : lead.email ≠ "") :
    (send_lead_email_route (some leads) meta (SenderState.mk c (some today))
        cap true Transport.success today now lead_id subject_arg
        body_arg).jobs_metadata = meta
    ∧ get_lead ((send_lead_email_route (some leads) meta
        (SenderState.mk c (some today)) cap true Transport.success today now
        lead_id subject_arg body_arg).store.getD []) lead_id
      = some (Lead.mk lead.id lead.email (advance_step lead.sequence_step)
          (some now) lead.scheduled_at
          (some ((py_or_str subject_arg lead.email_subject).getD ""))
          (some ((py_or_str body_arg lead.email_draft).getD "")))
    ∧ (send_lead_email_route (some leads) meta (SenderState.mk c (some today))
        cap true Transport.success today now lead_id subject_arg
        body_arg).result
      = RouteResult.ok lead_id (advance_step lead.sequence_step) := by
  have hreset : reset_daily_count_if_needed (SenderState.mk c (some today))
      today = SenderState.mk c (some today) := by
    simp [reset_daily_count_if_needed]
  have hqz : ¬ (cap - c = 0) := by omega
  have hsend : send_email_sync true cap lead.email Transport.success
      (SenderState.mk c (some today)) today
      = (SenderState.mk (c + 1) (some today), true,
         "Email sent successfully") := by
    simp [send_email_sync, reset_daily_count_if_needed, Nat.not_le.mpr hq]
  have hcond : ¬ (truthy (py_or_str subject_arg lead.email_subject) = false
      ∨ truthy (py_or_str body_arg lead.email_draft) = false) := by
    simp [hsubj, hbody]
  have hr : send_lead_email_route (some leads) meta
      (SenderState.mk c (some today)) cap true Transport.success today now
      lead_id subject_arg body_arg
      = RouteOutcome.mk
          (some (update_lead leads lead_id
            (LeadUpdates.mk (some (advance_step lead.sequence_step))
              (some (some now)) none
              (some (some ((py_or_str subject_arg lead.email_subject).getD "")))
              (some (some ((py_or_str body_arg lead.email_draft).getD ""))))))
          meta (SenderState.mk (c + 1) (some today))
          (RouteResult.ok lead_id (advance_step lead.sequence_step)) := by
    simp only [send_lead_email_route, hl, hreset]
    rw [if_neg hqz, if_neg hcond, if_neg he]
    rw [hsend]
    rfl
  rw [hr]
  refine ⟨rfl, ?_, rfl⟩
  simp only [Option.getD_some]
  rw [get_lead_update_lead, hl]
  rfl

/-- Witness for c10_route_send_keeps_schedule: an immediate send for a
lead with a pending job (scheduled_at = 42 and a persisted entry) keeps
both the entry and the scheduled_at value. -/
theorem c10_route_send_keeps_schedule_witness :
    (send_lead_email_route
        (some [Lead.mk 7 "a@b.com" SequenceStep.initialSent none (some 42)
          (some "su") (some "bo")])
        [("7", JobMeta.mk 7 "s" "b" 42 1)] (SenderState.mk 0 (some 0)) 10 true
        Transport.success 0 99 7 none none).jobs_metadata
      = [("7", JobMeta.mk 7 "s" "b" 42 1)]
    ∧ get_lead ((send_lead_email_route
        (some [Lead.mk 7 "a@b.com" SequenceStep.initialSent none (some 42)
          (some "su") (some "bo")])
        [("7", JobMeta.mk 7 "s" "b" 42 1)] (SenderState.mk 0 (some 0)) 10 true
        Transport.success 0 99 7 none none).store.getD []) 7
      = some (Lead.mk 7 "a@b.com" SequenceStep.ghost1Sent (some 99) (some 42)
          (some "su") (some "bo")) :=
  ⟨(c10_route_send_keeps_schedule
      [Lead.mk 7 "a@b.com" SequenceStep.initialSent none (some 42)
        (some "su") (some "bo")]
      [("7", JobMeta.mk 7 "s" "b" 42 1)] 0 10 0 99 7 none none
      (Lead.mk 7 "a@b.com" SequenceStep.initialSent none (some 42)
        (some "su") (some "bo"))
      (by decide) (by decide) (by decide) (by decide) (by decide)).1,
   (c10_route_send_keeps_schedule
      [Lead.mk 7 "a@b.com" SequenceStep.initialSent none (some 42)
        (some "su") (some "bo")]
      [("7", JobMeta.mk 7 "s" "b" 42 1)] 0 10 0 99 7 none none
      (Lead.mk 7 "a@b.com" SequenceStep.initialSent none (some 42)
        (some "su") (some "bo"))
      (by decide) (by decide) (by decide) (by decide) (by decide)).2.1⟩

/-- Timer key a persisted entry restores under: str(int(lead_id_str)). -/
def norm_key (e : String × Json) : String :=
  match py_int e.1 with
  | some i => toString i
  | none => e.1

/-- Characterisation of _restore_jobs on a well-formed persisted mapping
(integer keys, string run_date values that parse, subject and body
present, normalised keys pairwise distinct): the loop never aborts, warns
or fires, reads of untouched keys pass through to the accumulator, and
each entry registers its timer exactly when its run date is in the
future, being listed for manual review otherwise. -/
theorem restore_jobs_wf (parse : String → Option Int) (now : Int) :
    ∀ (entries : List (String × Json)) (acc : List (String × RestoreTimer)),
    (∀ e ∈ entries, ∃ (id : Int) (s : String) (subj bod : Json) (t : Int),
       py_int e.1 = some id ∧
       json_get e.2 "run_date" = some (Json.jstr s) ∧ parse s = some t ∧
       json_get e.2 "subject" = some subj ∧ json_get e.2 "body" = some bod) →
    (entries.map norm_key).Nodup →
    (restore_jobs parse now entries acc).aborted = false
    ∧ (restore_jobs parse now entries acc).fired = []
    ∧ (restore_jobs parse now entries acc).warn_count = 0
    ∧ (∀ k, k ∉ entries.map norm_key →
        dict_get (restore_jobs parse now entries acc).timers k = dict_get acc k)
    ∧ (∀ e ∈ entries, ∀ (id : Int) (s : String) (subj bod : Json) (t : Int),
        py_int e.1 = some id →
        json_get e.2 "run_date" = some (Json.jstr s) →
        parse s = some t →
        json_get e.2 "subject" = some subj →
        json_get e.2 "body" = some bod →
        (now < t → dict_get (restore_jobs parse now entries acc).timers
            (toString id) = some (RestoreTimer.mk t id subj bod))
        ∧ (¬ now < t →
            id ∈ (restore_jobs parse now entries acc).skipped_past
            ∧ dict_get (restore_jobs parse now entries acc).timers (toString id)
              = dict_get acc (toString id))) := by
  intro entries
  induction entries with
  | nil =>
    intro acc _ _
    exact ⟨rfl, rfl, rfl, fun k _ => rfl, fun e he => absurd he (by simp)⟩
  | cons e rest ih =>
    intro acc hwf hnd
    obtain ⟨key, jd⟩ := e
    obtain ⟨id0, s0, subj0, bod0, t0, hid, hrd, hps, hsj, hbd⟩ :=
      hwf (key, jd) (List.mem_cons_self _ _)
    have hwfr := fun x hx => hwf x (List.mem_cons_of_mem _ hx)
    have hndr : (rest.map norm_key).Nodup := by
      rw [List.map_cons, List.nodup_cons] at hnd
      exact hnd.2
    have hhd : norm_key (key, jd) ∉ rest.map norm_key := by
      rw [List.map_cons, List.nodup_cons] at hnd
      exact hnd.1
    have hnk : norm_key (key, jd) = toString id0 := by
      simp [norm_key, hid]
    by_cases ht : now < t0
    · have hstep : restore_jobs parse now ((key, jd) :: rest) acc
          = restore_jobs parse now rest
              (dict_set acc (toString id0)
                (RestoreTimer.mk t0 id0 subj0 bod0)) := by
        simp only [restore_jobs, hid, hrd, hps, hsj, hbd]
        rw [if_pos ht]
      obtain ⟨ha, hf, hw, hframe, hpt⟩ :=
        ih (dict_set acc (toString id0) (RestoreTimer.mk t0 id0 subj0 bod0))
          hwfr hndr
      rw [hstep]
      refine ⟨ha, hf, hw, ?_, ?_⟩
      · intro k hk
        have hk1 : k ≠ toString id0 := by
          intro hkk
          apply hk
          rw [List.map_cons, List.mem_cons, hnk]
          exact Or.inl hkk
        have hk2 : k ∉ rest.map norm_key := by
          intro hh
          exact hk (by rw [List.map_cons, List.mem_cons]; exact Or.inr hh)
        rw [hframe k hk2, dict_get_set_ne _ _ _ _ hk1]
      · intro x hx id s subj bod t hid2 hrd2 hps2 hsj2 hbd2
        rcases List.mem_cons.mp hx with hxe | hxr
        · have hid2b : py_int key = some id := by rw [hxe] at hid2; exact hid2
          have hrd2b : json_get jd "run_date" = some (Json.jstr s) := by
            rw [hxe] at hrd2; exact hrd2
          have hsj2b : json_get jd "subject" = some subj := by
            rw [hxe] at hsj2; exact hsj2
          have hbd2b : json_get jd "body" = some bod := by
            rw [hxe] at hbd2; exact hbd2
          have hideq : id0 = id := by
            have h1 : some id0 = some id := by rw [← hid]; exact hid2b
            exact Option.some_inj.mp h1
          have hseq : s0 = s := by
            have h1 : some (Json.jstr s0) = some (Json.jstr s) := by
              rw [← hrd]; exact hrd2b
            have h2 := Option.some_inj.mp h1
            injection h2
          have hteq : t0 = t := by
            have h1 : some t0 = some t := by rw [← hps, hseq]; exact hps2
            exact Option.some_inj.mp h1
          have hsjeq : subj0 = subj := by
            have h1 : some subj0 = some subj := by rw [← hsj]; exact hsj2b
            exact Option.some_inj.mp h1
          have hbdeq : bod0 = bod := by
            have h1 : some bod0 = some bod := by rw [← hbd]; exact hbd2b
            exact Option.some_inj.mp h1
          subst hideq hseq hteq hsjeq hbdeq
          constructor
          · intro _
            rw [hframe (toString id0) (hnk ▸ hhd), dict_get_set_self]
          · intro hcon
            exact absurd ht hcon
        · have hres := hpt x hxr id s subj bod t hid2 hrd2 hps2 hsj2 hbd2
          refine ⟨hres.1, fun hnt => ?_⟩
          obtain ⟨hskip, heq⟩ := hres.2 hnt
          refine ⟨hskip, ?_⟩
          have hne : toString id ≠ toString id0 := by
            intro hEq
            apply hnk ▸ hhd
            rw [← hEq]
            have : norm_key x = toString id := by simp [norm_key, hid2]
            rw [← this]
            exact List.mem_map_of_mem norm_key hxr
          rw [heq, dict_get_set_ne _ _ _ _ hne]
    · have hstep : restore_jobs parse now ((key, jd) :: rest) acc
          = RestoreOutcome.mk (restore_jobs parse now rest acc).timers
              (id0 :: (restore_jobs parse now rest acc).skipped_past)
              (restore_jobs parse now rest acc).warn_count
              (restore_jobs parse now rest acc).fired
              (restore_jobs parse now rest acc).aborted := by
        simp only [restore_jobs, hid, hrd, hps]
        rw [if_neg ht]
      obtain ⟨ha, hf, hw, hframe, hpt⟩ := ih acc hwfr hndr
      rw [hstep]
      refine ⟨ha, hf, hw, ?_, ?_⟩
      · intro k hk
        exact hframe k
          (fun hh => hk (by rw [List.map_cons, List.mem_cons]; exact Or.inr hh))
      · intro x hx id s subj bod t hid2 hrd2 hps2 hsj2 hbd2
        rcases List.mem_cons.mp hx with hxe | hxr
        · have hid2b : py_int key = some id := by rw [hxe] at hid2; exact hid2
          have hrd2b : json_get jd "run_date" = some (Json.jstr s) := by
            rw [hxe] at hrd2; exact hrd2
          have hideq : id0 = id := by
            have h1 : some id0 = some id := by rw [← hid]; exact hid2b
            exact Option.some_inj.mp h1
          have hseq : s0 = s := by
            have h1 : some (Json.jstr s0) = some (Json.jstr s) := by
              rw [← hrd]; exact hrd2b
            have h2 := Option.some_inj.mp h1
            injection h2
          have hteq : t0 = t := by
            have h1 : some t0 = some t := by rw [← hps, hseq]; exact hps2
            exact Option.some_inj.mp h1
          subst hideq hteq
          constructor
          · intro hlt
            exact absurd hlt ht
          · intro _
            exact ⟨List.mem_cons_self _ _,
              hframe (toString id0) (hnk ▸ hhd)⟩
        · have hres := hpt x hxr id s subj bod t hid2 hrd2 hps2 hsj2 hbd2
          exact ⟨hres.1, fun hnt =>
            ⟨List.mem_cons_of_mem _ (hres.2 hnt).1, (hres.2 hnt).2⟩⟩

/-- Claim C7: startup recovery leaves the lead store untouched and
auto-fires nothing; each well-formed persisted entry gets its timer
re-registered exactly when its run time is still in the future, and an
entry whose run time has passed registers no timer and is surfaced in the
skipped list for manual review. -/
theorem c7_restore_registers_future_only (parse : String → Option Int)
    (now : Int) (entries : List (String × Json)) (store : Option (List Lead))
    (hwf : ∀ e ∈ entries, ∃ (id : Int) (s : String) (subj bod : Json) (t : Int),
       py_int e.1 = some id ∧
       json_get e.2 "run_date" = some (Json.jstr s) ∧ parse s = some t ∧
       json_get e.2 "subject" = some subj ∧ json_get e.2 "body" = some bod)
    (hnd : (entries.map norm_key).Nodup) :
    (scheduler_start parse now entries store).1 = store
    ∧ (restore_jobs parse now entries []).fired = []
    ∧ (restore_jobs parse now entries []).aborted = false
    ∧ (∀ e ∈ entries, ∀ (id : Int) (s : String) (subj bod : Json) (t : Int),
        py_int e.1 = some id →
        json_get e.2 "run_date" = some (Json.jstr s) →
        parse s = some t →
        json_get e.2 "subject" = some subj →
        json_get e.2 "body" = some bod →
        (now < t → dict_get (restore_jobs parse now entries []).timers
            (toString id) = some (RestoreTimer.mk t id subj bod))
        ∧ (¬ now < t →
            dict_get (restore_jobs parse now entries []).timers (toString id)
              = none
            ∧ id ∈ (restore_jobs parse now entries []).skipped_past)) := by
  obtain ⟨ha, hf, _hw, _hframe, hpt⟩ :=
    restore_jobs_wf parse now entries [] hwf hnd
  refine ⟨rfl, hf, ha, ?_⟩
  intro e he id s subj bod t h1 h2 h3 h4 h5
  have hres := hpt e he id s subj bod t h1 h2 h3 h4 h5
  refine ⟨hres.1, fun hnt => ?_⟩
  obtain ⟨hskip, heq⟩ := hres.2 hnt
  exact ⟨by rw [heq]; rfl, hskip⟩

/-- Parse function of the c7 witness: one past and one future date. -/
def c7_parse : String → Option Int := fun s =>
  if s = "past" then some (-5) else if s = "future" then some 100 else none

/-- Persisted mapping of the c7 witness: lead 1 scheduled in the past,
lead 2 in the future. -/
def c7_entries : List (String × Json) :=
  [("1", Json.jobj [("run_date", Json.jstr "past"),
     ("subject", Json.jstr "s1"), ("body", Json.jstr "b1")]),
   ("2", Json.jobj [("run_date", Json.jstr "future"),
     ("subject", Json.jstr "s2"), ("body", Json.jstr "b2")])]

/-- Witness for c7_restore_registers_future_only: the store is untouched,
the future job of lead 2 is re-registered, the past job of lead 1 is not
and lands in the skipped list. -/
theorem c7_restore_registers_future_only_witness :
    (scheduler_start c7_parse 0 c7_entries (some [])).1 = some []
    ∧ dict_get (restore_jobs c7_parse 0 c7_entries []).timers (toString (2 : Int))
        = some (RestoreTimer.mk 100 2 (Json.jstr "s2") (Json.jstr "b2"))
    ∧ dict_get (restore_jobs c7_parse 0 c7_entries []).timers (toString (1 : Int))
        = none
    ∧ (1 : Int) ∈ (restore_jobs c7_parse 0 c7_entries []).skipped_past := by
  have hwf : ∀ e ∈ c7_entries,
      ∃ (id : Int) (s : String) (subj bod : Json) (t : Int),
        py_int e.1 = some id ∧
        json_get e.2 "run_date" = some (Json.jstr s) ∧ c7_parse s = some t ∧
        json_get e.2 "subject" = some subj ∧ json_get e.2 "body" = some bod := by
    intro e he
    rcases List.mem_cons.mp he with rfl | he2
    · exact ⟨1, "past", Json.jstr "s1", Json.jstr "b1", -5,
        by decide, rfl, by decide, rfl, rfl⟩
    rcases List.mem_cons.mp he2 with rfl | he3
    · exact ⟨2, "future", Json.jstr "s2", Json.jstr "b2", 100,
        by decide, rfl, by decide, rfl, rfl⟩
    · cases he3
  have hnd : (c7_entries.map norm_key).Nodup := by
    simp only [c7_entries, norm_key, List.map_cons, List.map_nil]
    decide
  have h := c7_restore_registers_future_only c7_parse 0 c7_entries (some [])
    hwf hnd
  have h2 := h.2.2.2
    ("2", Json.jobj [("run_date", Json.jstr "future"),
      ("subject", Json.jstr "s2"), ("body", Json.jstr "b2")])
    (List.mem_cons_of_mem _ (List.mem_cons_self _ _))
    2 "future" (Json.jstr "s2") (Json.jstr "b2") 100
    (by decide) rfl (by decide) rfl rfl
  have h1 := h.2.2.2
    ("1", Json.jobj [("run_date", Json.jstr "past"),
      ("subject", Json.jstr "s1"), ("body", Json.jstr "b1")])
    (List.mem_cons_self _ _)
    1 "past" (Json.jstr "s1") (Json.jstr "b1") (-5)
    (by decide) rfl (by decide) rfl rfl
  refine ⟨h.1, h2.1 (by decide), ?_, ?_⟩
  · exact (h1.2 (by decide)).1
  · exact (h1.2 (by decide)).2

/-- Parse function of the c9 failing input. -/
def c9_parse : String → Option Int := fun s =>
  if s = "future" then some 100 else none

/-- Failing input of claim C9: a corrupt entry (key "5" with an empty
object, so job_data has no run_date key) followed by a well-formed
entry for lead 7 whose run date is in the future. -/
def c9_entries : List (String × Json) :=
  [("5", Json.jobj []),
   ("7", Json.jobj [("run_date", Json.jstr "future"),
     ("subject", Json.jstr "s"), ("body", Json.jstr "b")])]

/-- Claim C9 evaluated at the failing input: job_data[run_date] is read
OUTSIDE the per-entry try block of _restore_jobs, so the corrupt entry
raises an uncaught KeyError that aborts the whole loop — no warning is
logged and the well-formed future entry for lead 7 never gets its timer
re-registered, against the claim (and the spec) that a corrupt entry is
skipped with a logged warning and never blocks remaining entries. -/
theorem c9_corrupt_entry_aborts_restore :
    (restore_jobs c9_parse 0 c9_entries []).aborted = true
  ∧ (restore_jobs c9_parse 0 c9_entries []).timers = []
  ∧ dict_get (restore_jobs c9_parse 0 c9_entries []).timers (toString (7 : Int))
      = none
  ∧ (restore_jobs c9_parse 0 c9_entries []).warn_count = 0
  ∧ c9_parse "future" = some 100 ∧ (0 : Int) < 100 :=
  ⟨rfl, rfl, rfl, rfl, by decide, by decide⟩
